import Mathlib

/-!
# Verification of the encryptopia-file-haven protection core

Shallow embedding of the client-side protection core of the file-storage
application: the symmetric cipher engine and password-derived cipher engine
(`src/utils/encryption` module), the request governor (`src/lib/requestUtils.ts`),
the biometric match decision (`src/components/FaceRecognition.tsx`) and the
password-reset flow (`src/hooks/useFiles.ts`).

Bytes are modelled as `Fin 256`; byte buffers as `List Byte`; JS strings as
lists of character codes (`List Nat`).  Platform primitives that are not part
of the repository (WebCrypto AES-GCM, PBKDF2, `btoa`/`atob`) are modelled from
the specification's provider interface as concrete executable functions with
the interface properties the spec requires (authenticated-encryption
round-trip, 12-byte IV, 16-byte tag, reversible text encoding of byte
strings).  Randomness (generated keys, IVs, salts) is passed explicitly as
arguments, and thrown JS exceptions are modelled as `Option`/failure results.
-/

namespace Encryptopia

abbrev Byte := Fin 256

def byteOfNat (n : Nat) : Byte := ⟨n % 256, Nat.mod_lt _ (by omega)⟩

/-- Byte-wise xor, closed on `Fin 256`. -/
def bxor (a b : Byte) : Byte :=
  ⟨a.val ^^^ b.val, by
    have h : a.val ^^^ b.val < 2 ^ 8 :=
      Nat.xor_lt_two_pow (by simp [a.isLt]) (by simp [b.isLt])
    simpa using h⟩

theorem bxor_self_cancel (a k : Byte) : bxor (bxor a k) k = a := by
  apply Fin.ext
  simp [bxor, Nat.xor_assoc]

/-- Masking a buffer with a keystream and masking again restores the buffer. -/
theorem zipWith_bxor_cancel : ∀ (p ks : List Byte), p.length ≤ ks.length →
    List.zipWith bxor (List.zipWith bxor p ks) ks = p
  | [], _, _ => by simp
  | _ :: _, [], h => by simp at h
  | a :: p, k :: ks, h => by
    simp only [List.zipWith, bxor_self_cancel, List.cons.injEq, true_and]
    exact zipWith_bxor_cancel p ks (by simpa using h)

def byteSum (l : List Byte) : Nat := l.foldl (fun a b => a + b.val) 0

/-! ## Modelled platform text codec (`btoa` / `atob`)

The repository stores salts, keys and verification tags as base64 strings
produced by the platform's `btoa` and read back with `atob`.  The codec itself
is not repository code; what the code relies on is that it is a reversible
injective encoding of byte strings into character strings and that decoding
malformed strings throws (`atob`).  We model it as a hexadecimal codec with
exactly that interface. -/

/-- Modelled from the spec: the platform `btoa` encoding of a byte string into
character codes (an injective reversible text encoding; modelled as hex). -/
def encodeB64 (l : List Byte) : List Nat :=
  l.flatMap fun b => [hexDigit (b.val / 16), hexDigit (b.val % 16)]
where
  hexDigit (n : Nat) : Nat := if n < 10 then 48 + n else 87 + n

/-- Modelled from the spec: the platform `atob` decoding; `none` models the
exception `atob` throws on malformed input. -/
def decodeB64 : List Nat → Option (List Byte)
  | [] => some []
  | [_] => none
  | c1 :: c2 :: rest =>
    match hexVal c1, hexVal c2, decodeB64 rest with
    | some h, some l, some tl => some (byteOfNat (h * 16 + l) :: tl)
    | _, _, _ => none
where
  hexVal (c : Nat) : Option Nat :=
    if 48 ≤ c ∧ c ≤ 57 then some (c - 48)
    else if 97 ≤ c ∧ c ≤ 102 then some (c - 87) else none

theorem hexVal_hexDigit (n : Nat) (h : n < 16) :
    decodeB64.hexVal (encodeB64.hexDigit n) = some n := by
  interval_cases n <;> rfl

theorem decodeB64_encodeB64 : ∀ l : List Byte, decodeB64 (encodeB64 l) = some l
  | [] => rfl
  | b :: l => by
    have hdiv : b.val / 16 < 16 := by omega
    have hmod : b.val % 16 < 16 := by omega
    have ih := decodeB64_encodeB64 l
    simp only [encodeB64, List.flatMap_cons, List.cons_append, List.nil_append]
    show decodeB64 (_ :: _ :: _) = _
    rw [decodeB64]
    rw [hexVal_hexDigit _ hdiv, hexVal_hexDigit _ hmod]
    have : encodeB64 l = l.flatMap fun b =>
        [encodeB64.hexDigit (b.val / 16), encodeB64.hexDigit (b.val % 16)] := rfl
    rw [← this, ih]
    have hb : b.val / 16 * 16 + b.val % 16 = b.val := by omega
    simp [byteOfNat, hb, Fin.ext_iff, Nat.mod_eq_of_lt b.isLt]

/-! ## Modelled AEAD primitive (WebCrypto AES-GCM)

The engines call `window.crypto.subtle.encrypt/decrypt` with AES-GCM.  The
primitive is platform code, not repository code.  Modelled from the spec's
provider interface `{aeadEncrypt, aeadDecrypt}`: authenticated encryption
whose ciphertext is the masked plaintext followed by a 16-byte authentication
tag over (key, iv, ciphertext body); decryption checks the tag and fails
(`none`, modelling the thrown `OperationError`) when it does not verify. -/

def keystream (key iv : List Byte) (n : Nat) : List Byte :=
  (List.range n).map fun i => byteOfNat (byteSum key * 31 + byteSum iv * 17 + i * 7 + 11)

def aeadTag (key iv ct : List Byte) : List Byte :=
  (List.range 16).map fun i =>
    byteOfNat (byteSum key * 13 + byteSum iv * 29 + byteSum ct * 7 + ct.length * 3 + i)

/-- Modelled from the spec: `aeadEncrypt(key, iv, plaintext)` — AES-GCM
encryption; output is ciphertext body followed by the 16-byte auth tag. -/
def aeadEncrypt (key iv pt : List Byte) : List Byte :=
  let body := List.zipWith bxor pt (keystream key iv pt.length)
  body ++ aeadTag key iv body

/-- Modelled from the spec: `aeadDecrypt(key, iv, data)` — AES-GCM decryption;
`none` models the exception thrown on authentication failure. -/
def aeadDecrypt (key iv data : List Byte) : Option (List Byte) :=
  if data.length < 16 then none
  else
    let body := data.take (data.length - 16)
    let tg := data.drop (data.length - 16)
    if aeadTag key iv body = tg then
      some (List.zipWith bxor body (keystream key iv body.length))
    else none

theorem keystream_length (key iv : List Byte) (n : Nat) :
    (keystream key iv n).length = n := by simp [keystream]

theorem aeadTag_length (key iv ct : List Byte) : (aeadTag key iv ct).length = 16 := by
  simp [aeadTag]

theorem aeadEncrypt_length (key iv pt : List Byte) :
    (aeadEncrypt key iv pt).length = pt.length + 16 := by
  simp [aeadEncrypt, keystream_length, aeadTag_length]

/-- The modelled AEAD round-trips: decrypting an encryption returns the
plaintext. -/
theorem aeadDecrypt_aeadEncrypt (key iv pt : List Byte) :
    aeadDecrypt key iv (aeadEncrypt key iv pt) = some pt := by
  set body := List.zipWith bxor pt (keystream key iv pt.length) with hbodydef
  have hbody : body.length = pt.length := by
    simp [hbodydef, keystream_length]
  have htake : (body ++ aeadTag key iv body).take pt.length = body := by
    rw [← hbody]; exact List.take_left body _
  have hdrop : (body ++ aeadTag key iv body).drop pt.length = aeadTag key iv body := by
    rw [← hbody]; exact List.drop_left body _
  simp only [aeadDecrypt, aeadEncrypt, ← hbodydef, List.length_append, aeadTag_length, hbody]
  have hlen : ¬ pt.length + 16 < 16 := by omega
  simp only [if_neg hlen, Nat.add_sub_cancel, htake, hdrop, if_pos rfl]
  rw [hbody, hbodydef, zipWith_bxor_cancel pt _ (by rw [keystream_length])]
  simp

/-! ## Symmetric Cipher Engine (`encryptFile` / `decryptFile`)

From `src/utils/encryption`: `encryptFile` generates a random 256-bit key and
a random 12-byte IV, encrypts the file buffer with AES-GCM, prepends the IV to
the ciphertext, and returns the combined buffer together with the key exported
as base64.  `decryptFile` decodes the base64 key, splits the first 12 bytes
off as the IV and decrypts the remainder.  The random draws (`generateKey`,
`getRandomValues`) are passed explicitly as an `EncRand` argument. -/

structure EncRand where
  key : List Byte
  iv : List Byte
  deriving DecidableEq, Repr

structure EncResult where
  encryptedFile : List Byte
  key : List Nat
  deriving DecidableEq, Repr

def encryptFile (file : List Byte) (r : EncRand) : EncResult :=
  { encryptedFile := r.iv ++ aeadEncrypt r.key r.iv file
    key := encodeB64 r.key }

/-- `decryptFile` has no try/catch in the source: `none` models the exception
that propagates to the caller (bad base64 key or authentication failure). -/
def decryptFile (blob : List Byte) (keyBase64 : List Nat) : Option (List Byte) :=
  match decodeB64 keyBase64 with
  | none => none
  | some keyBytes =>
    let iv := blob.take 12
    let ciphertext := blob.drop 12
    aeadDecrypt keyBytes iv ciphertext

/-- Follows the spec's words (§4.1), for comparison with the source
`encryptFile`: `encrypt(plaintext, key?)` uses the caller-supplied key when
one is given and only generates a fresh random key when none is given,
returning the key actually used. -/
def encryptFileSpecOptionalKey (file : List Byte) (keyOpt : Option (List Byte))
    (r : EncRand) : EncResult :=
  let k := keyOpt.getD r.key
  { encryptedFile := r.iv ++ aeadEncrypt k r.iv file
    key := encodeB64 k }

/-! ## Password-Derived Cipher Engine -/

/-- Modelled from the spec: `deriveKey(password, salt)` — the PBKDF2-SHA-256
(100,000 iterations) key derivation performed by the platform
`crypto.subtle.deriveKey`; a deterministic 32-byte key from password and
salt. -/
def deriveKeyBytes (password : List Nat) (salt : List Byte) : List Byte :=
  (List.range 32).map fun i =>
    byteOfNat ((password.foldl (· + ·) 0) * 131 + byteSum salt * 37 + i * 7 + 5)

/-- The UTF-8 bytes of the fixed marker plaintext `"VERIFICATION_STRING"`. -/
def markerBytes : List Byte :=
  [86, 69, 82, 73, 70, 73, 67, 65, 84, 73, 79, 78, 95, 83, 84, 82, 73, 78, 71]

/-- The constant verification IV: `new Uint8Array(12).fill(1)`. -/
def fixedIV : List Byte := List.replicate 12 1

/-- The base64 verification tag recomputed from a password and raw salt:
the marker plaintext encrypted under the derived key with the constant IV. -/
def verificationTagFor (password : List Nat) (saltBytes : List Byte) : List Nat :=
  encodeB64 (aeadEncrypt (deriveKeyBytes password saltBytes) fixedIV markerBytes)

structure PwRand where
  salt : List Byte
  iv : List Byte
  deriving DecidableEq, Repr

structure PwEncResult where
  encryptedFile : List Byte
  salt : List Nat
  verificationHash : List Nat
  deriving DecidableEq, Repr

/-- `encryptFileWithPassword(file, password)`: derive `(key, salt)`, encrypt
the marker under the constant IV to obtain the verification hash, encrypt the
payload under a fresh random IV, and return IV‖ciphertext with the base64 salt
and verification hash.  Random draws (salt, payload IV) are the `PwRand`
argument. -/
def encryptFileWithPassword (file : List Byte) (password : List Nat)
    (r : PwRand) : PwEncResult :=
  let key := deriveKeyBytes password r.salt
  { encryptedFile := r.iv ++ aeadEncrypt key r.iv file
    salt := encodeB64 r.salt
    verificationHash := encodeB64 (aeadEncrypt key fixedIV markerBytes) }

structure PwDecResult where
  success : Bool
  decryptedFile : Option (List Byte)
  deriving DecidableEq, Repr

/-- `decryptFileWithPassword`, instrumented: the second component records
whether the payload-decryption step (`crypto.subtle.decrypt` on the file
body) was invoked in the run.  The whole body sits in a try/catch returning
`{success: false}`, and the verification step has its own inner catch, so
every failure surfaces as `⟨false, none⟩`. -/
def decryptFileWithPasswordT (blob : List Byte) (password salt verificationHash : List Nat) :
    PwDecResult × Bool :=
  match decodeB64 salt with
  | none => (⟨false, none⟩, false)
  | some saltBytes =>
    let calculatedHash := verificationTagFor password saltBytes
    if calculatedHash ≠ verificationHash then (⟨false, none⟩, false)
    else
      let iv := blob.take 12
      let ciphertext := blob.drop 12
      match aeadDecrypt (deriveKeyBytes password saltBytes) iv ciphertext with
      | some pt => (⟨true, some pt⟩, true)
      | none => (⟨false, none⟩, true)

def decryptFileWithPassword (blob : List Byte) (password salt verificationHash : List Nat) :
    PwDecResult :=
  (decryptFileWithPasswordT blob password salt verificationHash).1

/-- `verifyPassword(password, saltBase64, verificationHash)`: recompute the
marker ciphertext and compare; any thrown error (malformed base64 salt) is
caught and yields `false`. -/
def verifyPassword (password salt verificationHash : List Nat) : Bool :=
  match decodeB64 salt with
  | none => false
  | some saltBytes => verificationTagFor password saltBytes = verificationHash

/-- `resetFilePassword` (from `src/hooks/useFiles.ts`), protection core only:
the stored blob is downloaded, read back as an ArrayBuffer, wrapped in a new
`File` **as is** — it is never decrypted — and encrypted with the new
password; the new salt and verification hash replace the old ones on the
record. -/
def resetFilePassword (storedBlob : List Byte) (newPassword : List Nat)
    (r : PwRand) : PwEncResult :=
  encryptFileWithPassword storedBlob newPassword r

/-! ## Request Governor (`src/lib/requestUtils.ts`)

`throttleRequest` keeps a module-level running count `activeRequests` and a
FIFO `requestQueue`.  A submission below the cap increments the count and runs
immediately; otherwise its thunk is pushed to the back of the queue.  When a
running task settles, the count is decremented and, if the queue is nonempty,
the front thunk is shifted off and invoked (incrementing the count again).
We model the shared state and the two transitions as a state machine; the
asynchronous task bodies themselves are irrelevant to the admission logic. -/

def MAX_CONCURRENT_REQUESTS : Nat := 5

structure GovState where
  activeRequests : Nat
  requestQueue : List Nat
  deriving DecidableEq, Repr

def govInit : GovState := ⟨0, []⟩

/-- One call to `throttleRequest` with task id `id`: returns the new state and
`true` when the task started immediately (fast path), `false` when it was
queued. -/
def govSubmit (s : GovState) (id : Nat) : GovState × Bool :=
  if s.activeRequests < MAX_CONCURRENT_REQUESTS then
    (⟨s.activeRequests + 1, s.requestQueue⟩, true)
  else
    (⟨s.activeRequests, s.requestQueue ++ [id]⟩, false)

/-- The `finally` block of a settling task: decrement the running count, then
shift the front of the queue (if any) and start it.  Returns the new state and
the id of the waiter started, if any. -/
def govComplete (s : GovState) : GovState × Option Nat :=
  let a := s.activeRequests - 1
  match s.requestQueue with
  | [] => (⟨a, []⟩, none)
  | h :: t => (⟨a + 1, t⟩, some h)

inductive GovEvent where
  | submit (id : Nat)
  | complete
  deriving DecidableEq, Repr

/-- One event step; also returns the ids that started running on this step.
A `complete` event is only meaningful when a task is running (in the source it
is emitted by a running task's `finally`); with no running task it is a
no-op. -/
def govStep (s : GovState) (e : GovEvent) : GovState × List Nat :=
  match e with
  | .submit id =>
    let (s', started) := govSubmit s id
    (s', if started then [id] else [])
  | .complete =>
    if s.activeRequests = 0 then (s, [])
    else
      let (s', w) := govComplete s
      (s', w.toList)

/-- Run a sequence of events from a state, collecting the start order. -/
def govRun (s : GovState) : List GovEvent → GovState × List Nat
  | [] => (s, [])
  | e :: es =>
    let (s', ids) := govStep s e
    let (s'', rest) := govRun s' es
    (s'', ids ++ rest)

/-! ## Retry schedule (`withRetry`, `safeRequest`)

`withRetry(fn, retries = 3, delay = 1000)`: try `fn`; on failure, if
`retries <= 0` rethrow the error, otherwise wait `delay` ms and recurse with
`retries - 1` and `delay * 1.5`.  The task is modelled as a function from the
attempt index to an `Except` outcome; the result carries the list of delays
waited.  Delays are rationals (JS numbers; exact on the values involved). -/

def withRetry {E A : Type} (fn : Nat → Except E A) : Nat → ℚ → Nat → Except E A × List ℚ
  | retries, delay, attempt =>
    match fn attempt with
    | .ok a => (.ok a, [])
    | .error e =>
      match retries with
      | 0 => (.error e, [])
      | r + 1 =>
        let (res, waits) := withRetry fn r (delay * 1.5) (attempt + 1)
        (res, delay :: waits)

def MAX_RETRIES : Nat := 3

def RETRY_DELAY_MS : ℚ := 1000

/-- `withRetry` with its default arguments, starting at the first attempt. -/
def withRetryDefault {E A : Type} (fn : Nat → Except E A) : Except E A × List ℚ :=
  withRetry fn MAX_RETRIES RETRY_DELAY_MS 0

/-- `safeRequest(fn) = throttleRequest(() => withRetry(fn))`: the retrying
task occupies one governor slot for all its attempts.  Modelled on the
admission state: one submission whose body is `withRetryDefault fn`. -/
def safeRequest {E A : Type} (s : GovState) (fn : Nat → Except E A) :
    GovState × Bool × (Except E A × List ℚ) :=
  let (s', started) := govSubmit s 0
  (s', started, withRetryDefault fn)

/-! ## Biometric match decision (`src/components/FaceRecognition.tsx`)

In verify mode the component computes
`faceapi.euclideanDistance(currentDescriptor, storedDescriptor)` and sets the
match result to `distance < threshold` with `threshold = 0.5`.  Descriptors
are modelled as rational vectors.  `euclideanDistance` is the external
face-api.js library function; it is modelled from the spec: the Euclidean
distance of two equal-length vectors, raising `InvalidDescriptor` (here
`none`) when the lengths differ.  To keep the decision executable it is
computed by comparing the squared distance with the squared threshold, which
is equivalent (the theorem relates it to the real Euclidean distance). -/

def sqDist (a b : List ℚ) : ℚ := (List.zipWith (fun x y => (x - y) ^ 2) a b).sum

def faceThreshold : ℚ := 1 / 2

/-- The match decision: `some (distance < threshold)` for equal-length
descriptors, `none` (the `InvalidDescriptor` error) otherwise. -/
def faceMatch (candidate stored : List ℚ) : Option Bool :=
  if candidate.length = stored.length then
    some (decide (sqDist candidate stored < faceThreshold ^ 2))
  else none

/-! ## Shared helper lemmas -/

theorem take12_append (iv rest : List Byte) (hiv : iv.length = 12) :
    (iv ++ rest).take 12 = iv := by
  rw [← hiv]; exact List.take_left iv rest

theorem drop12_append (iv rest : List Byte) (hiv : iv.length = 12) :
    (iv ++ rest).drop 12 = rest := by
  rw [← hiv]; exact List.drop_left iv rest

/-- Core symmetric round-trip: `decryptFile` inverts `encryptFile` when the
IV has its source length of 12 bytes. -/
theorem sym_roundtrip (file : List Byte) (r : EncRand) (hiv : r.iv.length = 12) :
    decryptFile (encryptFile file r).encryptedFile (encryptFile file r).key
      = some file := by
  simp only [encryptFile, decryptFile, decodeB64_encodeB64,
    take12_append _ _ hiv, drop12_append _ _ hiv, aeadDecrypt_aeadEncrypt]

/-- Core password round-trip, instrumented form: decrypting an
`encryptFileWithPassword` envelope with the same password succeeds, returns
the plaintext, and does reach the payload-decryption step. -/
theorem pw_roundtripT (file : List Byte) (password : List Nat) (r : PwRand)
    (hiv : r.iv.length = 12) :
    decryptFileWithPasswordT (encryptFileWithPassword file password r).encryptedFile
        password (encryptFileWithPassword file password r).salt
        (encryptFileWithPassword file password r).verificationHash
      = (⟨true, some file⟩, true) := by
  simp only [encryptFileWithPassword, decryptFileWithPasswordT, decodeB64_encodeB64,
    verificationTagFor, ne_eq, not_true_eq_false, if_false,
    take12_append _ _ hiv, drop12_append _ _ hiv, aeadDecrypt_aeadEncrypt]

theorem pw_roundtrip (file : List Byte) (password : List Nat) (r : PwRand)
    (hiv : r.iv.length = 12) :
    decryptFileWithPassword (encryptFileWithPassword file password r).encryptedFile
        password (encryptFileWithPassword file password r).salt
        (encryptFileWithPassword file password r).verificationHash
      = ⟨true, some file⟩ := by
  rw [decryptFileWithPassword, pw_roundtripT file password r hiv]

/-! ## Concrete sample inputs used by witnesses and counterexamples -/

/-- The 10-byte buffer `"0123456789"`. -/
def digitsBuffer : List Byte := [48, 49, 50, 51, 52, 53, 54, 55, 56, 57]

/-- The character codes of `"correct-horse"`. -/
def correctHorse : List Nat := [99, 111, 114, 114, 101, 99, 116, 45, 104, 111, 114, 115, 101]

def pwRandA : PwRand := ⟨List.replicate 16 7, List.replicate 12 3⟩

def encRandA : EncRand := ⟨List.replicate 32 11, List.replicate 12 4⟩

/-! ## Claims -/

/-- C1: Password round-trip — for every plaintext buffer `P`, password `pw`
and random draws (16-byte salt, 12-byte payload IV), encrypting with
`encryptFileWithPassword` and decrypting the resulting blob with the same
password, salt and verification tag succeeds and returns exactly `P`. -/
theorem C1_password_roundtrip (P : List Byte) (pw : List Nat) (r : PwRand)
    (hiv : r.iv.length = 12) :
    decryptFileWithPassword (encryptFileWithPassword P pw r).encryptedFile pw
        (encryptFileWithPassword P pw r).salt
        (encryptFileWithPassword P pw r).verificationHash
      = ⟨true, some P⟩ :=
  pw_roundtrip P pw r hiv

/-- C1 witness: the spec's concrete scenario — the 10-byte buffer
`"0123456789"` encrypted with password `"correct-horse"` decrypts back to
`"0123456789"`. -/
theorem C1_password_roundtrip_witness :
    pwRandA.iv.length = 12 ∧
    decryptFileWithPassword
        (encryptFileWithPassword digitsBuffer correctHorse pwRandA).encryptedFile
        correctHorse (encryptFileWithPassword digitsBuffer correctHorse pwRandA).salt
        (encryptFileWithPassword digitsBuffer correctHorse pwRandA).verificationHash
      = ⟨true, some digitsBuffer⟩ :=
  ⟨by decide, C1_password_roundtrip digitsBuffer correctHorse pwRandA (by decide)⟩

/-- C2: Symmetric round-trip and blob layout — `encryptFile` produces the
blob `IV ‖ ciphertext-with-16-byte-tag` (12-byte IV) together with the base64
key used, and `decryptFile` on that blob with that key returns exactly the
plaintext. -/
theorem C2_sym_roundtrip_layout (P : List Byte) (r : EncRand) (hiv : r.iv.length = 12) :
    (encryptFile P r).encryptedFile = r.iv ++ aeadEncrypt r.key r.iv P
      ∧ (aeadEncrypt r.key r.iv P).length = P.length + 16
      ∧ (encryptFile P r).key = encodeB64 r.key
      ∧ decryptFile (encryptFile P r).encryptedFile (encryptFile P r).key = some P :=
  ⟨rfl, aeadEncrypt_length r.key r.iv P, rfl, sym_roundtrip P r hiv⟩

/-- C2 witness: the layout and round-trip at a concrete plaintext and random
draw. -/
theorem C2_sym_roundtrip_layout_witness :
    encRandA.iv.length = 12 ∧
    decryptFile (encryptFile digitsBuffer encRandA).encryptedFile
        (encryptFile digitsBuffer encRandA).key = some digitsBuffer :=
  ⟨by decide, (C2_sym_roundtrip_layout digitsBuffer encRandA (by decide)).2.2.2⟩

/-- C6 counterexample: the source `encryptFile` accepts no caller-supplied
key.  The spec-worded operation (`encryptFileSpecOptionalKey`) passes a
supplied key through and uses it; the source operation cannot — called on the
same plaintext and the same random draw it returns the freshly generated
random key, not the supplied one. -/
theorem C6_optional_key_counterexample :
    (encryptFileSpecOptionalKey [1, 2, 3] (some (List.replicate 32 5))
        ⟨List.replicate 32 0, List.replicate 12 2⟩).key
      = encodeB64 (List.replicate 32 5)
    ∧ (encryptFile [1, 2, 3] ⟨List.replicate 32 0, List.replicate 12 2⟩).key
      ≠ encodeB64 (List.replicate 32 5)
    ∧ encryptFileSpecOptionalKey [1, 2, 3] (some (List.replicate 32 5))
        ⟨List.replicate 32 0, List.replicate 12 2⟩
      ≠ encryptFile [1, 2, 3] ⟨List.replicate 32 0, List.replicate 12 2⟩ := by
  decide

/-- C6 (amended): `encryptFile` takes no caller key — it always uses the
freshly generated random 256-bit key; the returned `CipherKey` is the base64
encoding of that generated key, which is the key actually used to encrypt:
it decodes back to the generated key and decrypting the blob with the
returned key recovers the plaintext. -/
theorem C6_key_always_generated (P : List Byte) (r : EncRand) (hiv : r.iv.length = 12) :
    (encryptFile P r).key = encodeB64 r.key
      ∧ decodeB64 (encryptFile P r).key = some r.key
      ∧ decryptFile (encryptFile P r).encryptedFile (encodeB64 r.key) = some P :=
  ⟨rfl, decodeB64_encodeB64 r.key, sym_roundtrip P r hiv⟩

/-- C6 witness: the amended statement at a concrete plaintext and random
draw. -/
theorem C6_key_always_generated_witness :
    encRandA.iv.length = 12 ∧
    decodeB64 (encryptFile digitsBuffer encRandA).key = some encRandA.key :=
  ⟨by decide, (C6_key_always_generated digitsBuffer encRandA (by decide)).2.1⟩

structure DownloadResult where
  success : Bool
  message : Option String
  deriving DecidableEq, Repr

/-- The password branch of `downloadFile` (`src/hooks/useFiles.ts`): when
`decryptFileWithPassword` does not yield a decrypted file the user sees the
single message `'Incorrect password'` and `{success: false}` is returned;
otherwise the download proceeds. -/
def downloadPasswordBranch (d : PwDecResult) : DownloadResult :=
  if d.success = false ∨ d.decryptedFile = none then ⟨false, some "Incorrect password"⟩
  else ⟨true, none⟩

/-! Concrete scenario for C3: a small file encrypted with password `"a"`,
attacked with the wrong password `"b"`, and a one-byte-corrupted copy. -/

def ceP3 : List Byte := [10, 20, 30]
def cePwA : List Nat := [97]
def cePwB : List Nat := [98]
def ceRand3 : PwRand := ⟨List.replicate 16 4, List.replicate 12 9⟩
def ceEnv3 : PwEncResult := encryptFileWithPassword ceP3 cePwA ceRand3
/-- `ceEnv3.encryptedFile` with the first ciphertext-body byte overwritten. -/
def ceCorrupt3 : List Byte := ceEnv3.encryptedFile.set 12 255

/-- C3 counterexample: the code has no `WrongPassword` failure kind.  At
concrete inputs, the result of decrypting with a wrong password is the very
same value `{success := false}` as the result of decrypting a corrupted blob
with the correct password, so the wrong-password failure is not a distinct
`WrongPassword` value. -/
theorem C3_no_wrongpassword_kind :
    decryptFileWithPassword ceEnv3.encryptedFile cePwB ceEnv3.salt ceEnv3.verificationHash
      = decryptFileWithPassword ceCorrupt3 cePwA ceEnv3.salt ceEnv3.verificationHash
    ∧ decryptFileWithPassword ceEnv3.encryptedFile cePwB ceEnv3.salt ceEnv3.verificationHash
      = ⟨false, none⟩ := by
  decide

/-- C3 (amended): for every blob, salt and stored verification tag, a
password whose recomputed marker ciphertext differs from the stored tag makes
`decryptFileWithPassword` return the code's generic failure value
`{success := false}` (the code has no distinct `WrongPassword` kind), and the
payload-decryption step is never invoked in that run (instrumentation flag
`false`). -/
theorem C3_wrong_password_failfast (blob : List Byte) (pw salt vh : List Nat)
    (saltBytes : List Byte) (hsalt : decodeB64 salt = some saltBytes)
    (hmismatch : verificationTagFor pw saltBytes ≠ vh) :
    decryptFileWithPasswordT blob pw salt vh = (⟨false, none⟩, false) := by
  simp [decryptFileWithPasswordT, hsalt, hmismatch]

/-- C3 witness: the fail-fast theorem at the concrete wrong-password
scenario. -/
theorem C3_wrong_password_failfast_witness :
    decodeB64 ceEnv3.salt = some ceRand3.salt
    ∧ verificationTagFor cePwB ceRand3.salt ≠ ceEnv3.verificationHash
    ∧ decryptFileWithPasswordT ceEnv3.encryptedFile cePwB ceEnv3.salt
        ceEnv3.verificationHash = (⟨false, none⟩, false) :=
  ⟨by decide, by decide,
    C3_wrong_password_failfast ceEnv3.encryptedFile cePwB ceEnv3.salt
      ceEnv3.verificationHash ceRand3.salt (by decide) (by decide)⟩

/-! Concrete scenario for C4, distinct from C3's. -/

def ceP4 : List Byte := [5, 6, 7, 8]
def cePw4 : List Nat := [113, 119]
def cePw4w : List Nat := [113, 120]
def ceRand4 : PwRand := ⟨List.replicate 16 2, List.replicate 12 8⟩
def ceEnv4 : PwEncResult := encryptFileWithPassword ceP4 cePw4 ceRand4
def ceCorrupt4 : List Byte := ceEnv4.encryptedFile.set 13 251

/-- C4 counterexample: the two failure modes are merged.  At concrete inputs,
a verification-tag mismatch (wrong password) and a payload
authentication-tag failure (correct password, one corrupted byte) produce the
identical result value, and `downloadFile` maps both to the same
`'Incorrect password'` message. -/
theorem C4_failure_kinds_merged_counterexample :
    decryptFileWithPassword ceEnv4.encryptedFile cePw4w ceEnv4.salt ceEnv4.verificationHash
      = decryptFileWithPassword ceCorrupt4 cePw4 ceEnv4.salt ceEnv4.verificationHash
    ∧ downloadPasswordBranch
        (decryptFileWithPassword ceEnv4.encryptedFile cePw4w ceEnv4.salt ceEnv4.verificationHash)
      = ⟨false, some "Incorrect password"⟩
    ∧ downloadPasswordBranch
        (decryptFileWithPassword ceCorrupt4 cePw4 ceEnv4.salt ceEnv4.verificationHash)
      = ⟨false, some "Incorrect password"⟩ := by
  have h1 : decryptFileWithPassword ceEnv4.encryptedFile cePw4w ceEnv4.salt
      ceEnv4.verificationHash = ⟨false, none⟩ := by decide
  have h2 : decryptFileWithPassword ceCorrupt4 cePw4 ceEnv4.salt
      ceEnv4.verificationHash = ⟨false, none⟩ := by decide
  refine ⟨h1.trans h2.symm, ?_, ?_⟩ <;> simp [h1, h2, downloadPasswordBranch]

/-- C4 (amended): `decryptFileWithPassword` does not distinguish its two
failure modes — for every wrong-password run (verification-tag mismatch) and
every corruption run (tag match, payload authentication failure) the results
are the same value `{success := false}`, and the `downloadFile` caller maps
both to the same user-visible outcome. -/
theorem C4_failures_indistinguishable (b1 b2 : List Byte) (p1 p2 s1 s2 v1 v2 : List Nat)
    (sb1 sb2 : List Byte)
    (h1 : decodeB64 s1 = some sb1) (hm1 : verificationTagFor p1 sb1 ≠ v1)
    (h2 : decodeB64 s2 = some sb2) (hm2 : verificationTagFor p2 sb2 = v2)
    (hcorrupt : aeadDecrypt (deriveKeyBytes p2 sb2) (b2.take 12) (b2.drop 12) = none) :
    decryptFileWithPassword b1 p1 s1 v1 = decryptFileWithPassword b2 p2 s2 v2
      ∧ decryptFileWithPassword b1 p1 s1 v1 = ⟨false, none⟩
      ∧ downloadPasswordBranch (decryptFileWithPassword b1 p1 s1 v1)
          = downloadPasswordBranch (decryptFileWithPassword b2 p2 s2 v2) := by
  have e1 : decryptFileWithPassword b1 p1 s1 v1 = ⟨false, none⟩ := by
    simp [decryptFileWithPassword, decryptFileWithPasswordT, h1, hm1]
  have e2 : decryptFileWithPassword b2 p2 s2 v2 = ⟨false, none⟩ := by
    simp [decryptFileWithPassword, decryptFileWithPasswordT, h2, hm2, hcorrupt]
  exact ⟨e1.trans e2.symm, e1, by rw [e1, e2]⟩

/-- C4 witness: the indistinguishability theorem at a concrete wrong-password
run and a concrete corruption run. -/
theorem C4_failures_indistinguishable_witness :
    decodeB64 ceEnv4.salt = some ceRand4.salt
    ∧ verificationTagFor cePw4w ceRand4.salt ≠ ceEnv4.verificationHash
    ∧ verificationTagFor cePw4 ceRand4.salt = ceEnv4.verificationHash
    ∧ aeadDecrypt (deriveKeyBytes cePw4 ceRand4.salt) (ceCorrupt4.take 12)
        (ceCorrupt4.drop 12) = none
    ∧ decryptFileWithPassword ceEnv4.encryptedFile cePw4w ceEnv4.salt ceEnv4.verificationHash
      = decryptFileWithPassword ceCorrupt4 cePw4 ceEnv4.salt ceEnv4.verificationHash :=
  ⟨by decide, by decide, by decide, by decide,
    (C4_failures_indistinguishable ceEnv4.encryptedFile ceCorrupt4 cePw4w cePw4
      ceEnv4.salt ceEnv4.salt ceEnv4.verificationHash ceEnv4.verificationHash
      ceRand4.salt ceRand4.salt (by decide) (by decide) (by decide) (by decide)
      (by decide)).1⟩

/-! Concrete scenario for C5. -/

def c5Plain : List Byte := [1, 2, 3, 4, 5]
def c5OldPw : List Nat := [111, 108, 100]
def c5NewPw : List Nat := [110, 101, 119]
def c5R1 : PwRand := ⟨List.replicate 16 6, List.replicate 12 5⟩
def c5R2 : PwRand := ⟨List.replicate 16 12, List.replicate 12 10⟩
/-- The blob stored for a password-protected file: the plaintext encrypted
under the old password. -/
def c5Stored : List Byte := (encryptFileWithPassword c5Plain c5OldPw c5R1).encryptedFile

/-- C5: evaluating the code at the failing input.  `resetFilePassword`
re-encrypts the downloaded, still-encrypted blob without decrypting it, so
after the reset, decrypting the newly stored blob with the new password
returns the old *ciphertext* `c5Stored`, which is not the file's original
plaintext content `c5Plain`. -/
theorem C5_reset_returns_ciphertext_not_plaintext :
    decryptFileWithPassword (resetFilePassword c5Stored c5NewPw c5R2).encryptedFile
        c5NewPw (resetFilePassword c5Stored c5NewPw c5R2).salt
        (resetFilePassword c5Stored c5NewPw c5R2).verificationHash
      = ⟨true, some c5Stored⟩
    ∧ c5Stored ≠ c5Plain := by
  refine ⟨?_, by decide⟩
  exact pw_roundtrip c5Stored c5NewPw c5R2 (by decide)

/-! ## Governor lemmas -/

theorem govStep_cap (s : GovState) (e : GovEvent)
    (h : s.activeRequests ≤ MAX_CONCURRENT_REQUESTS) :
    (govStep s e).1.activeRequests ≤ MAX_CONCURRENT_REQUESTS := by
  cases e with
  | submit id =>
    by_cases hlt : s.activeRequests < MAX_CONCURRENT_REQUESTS
    · simp only [govStep, govSubmit, if_pos hlt]
      omega
    · simp only [govStep, govSubmit, if_neg hlt]
      exact h
  | complete =>
    by_cases h0 : s.activeRequests = 0
    · simp only [govStep, if_pos h0]
      exact h
    · cases hq : s.requestQueue with
      | nil =>
        simp only [govStep, if_neg h0, govComplete, hq]
        omega
      | cons hd tl =>
        simp only [govStep, if_neg h0, govComplete, hq]
        omega

theorem govRun_cons (s : GovState) (e : GovEvent) (es : List GovEvent) :
    govRun s (e :: es)
      = ((govRun (govStep s e).1 es).1, (govStep s e).2 ++ (govRun (govStep s e).1 es).2) :=
  rfl

theorem govRun_cap : ∀ (es : List GovEvent) (s : GovState),
    s.activeRequests ≤ MAX_CONCURRENT_REQUESTS →
    (govRun s es).1.activeRequests ≤ MAX_CONCURRENT_REQUESTS
  | [], _, h => h
  | e :: es, s, h => by
    rw [govRun_cons]
    exact govRun_cap es _ (govStep_cap s e h)

/-- C7: Governor admission and FIFO fairness — (i) a submission with fewer
than 5 running starts immediately and only increments the running count;
(ii) a submission at the cap is appended to the back of the queue and does
not start; (iii) from the initial state, every event sequence keeps the
running count at or below the cap of 5; (iv) when a running task settles with
a nonempty queue, exactly the earliest-queued waiter is dequeued and started;
(v) submitting 8 tasks starts exactly tasks 1–5 immediately, leaves 6,7,8
queued in order, and the 6th starts exactly when one of the first 5 settles. -/
theorem C7_governor_admission_fifo :
    (∀ (s : GovState) (id : Nat), s.activeRequests < MAX_CONCURRENT_REQUESTS →
      govSubmit s id = (⟨s.activeRequests + 1, s.requestQueue⟩, true))
    ∧ (∀ (s : GovState) (id : Nat), ¬ s.activeRequests < MAX_CONCURRENT_REQUESTS →
      govSubmit s id = (⟨s.activeRequests, s.requestQueue ++ [id]⟩, false))
    ∧ (∀ es : List GovEvent,
      (govRun govInit es).1.activeRequests ≤ MAX_CONCURRENT_REQUESTS)
    ∧ (∀ (s : GovState) (h : Nat) (t : List Nat), 0 < s.activeRequests →
      s.requestQueue = h :: t → govStep s .complete = (⟨s.activeRequests, t⟩, [h]))
    ∧ govRun govInit
        [.submit 1, .submit 2, .submit 3, .submit 4, .submit 5, .submit 6, .submit 7, .submit 8]
      = (⟨5, [6, 7, 8]⟩, [1, 2, 3, 4, 5])
    ∧ govRun govInit
        [.submit 1, .submit 2, .submit 3, .submit 4, .submit 5, .submit 6, .submit 7, .submit 8,
          .complete]
      = (⟨5, [7, 8]⟩, [1, 2, 3, 4, 5, 6]) := by
  refine ⟨?_, ?_, ?_, ?_, by decide, by decide⟩
  · intro s id hlt
    simp [govSubmit, hlt]
  · intro s id hge
    simp [govSubmit, hge]
  · intro es
    exact govRun_cap es govInit (by simp [govInit, MAX_CONCURRENT_REQUESTS])
  · intro s h t hpos hq
    have h0 : ¬ s.activeRequests = 0 := by omega
    have ha : s.activeRequests - 1 + 1 = s.activeRequests := by omega
    simp [govStep, govComplete, h0, hq, ha]

/-- C7 witness: the admission rule, the queueing rule and the
dequeue-earliest rule at concrete governor states. -/
theorem C7_governor_admission_fifo_witness :
    (⟨3, []⟩ : GovState).activeRequests < MAX_CONCURRENT_REQUESTS
    ∧ govSubmit ⟨3, []⟩ 42 = (⟨4, []⟩, true)
    ∧ ¬ (⟨5, [9]⟩ : GovState).activeRequests < MAX_CONCURRENT_REQUESTS
    ∧ govSubmit ⟨5, [9]⟩ 43 = (⟨5, [9, 43]⟩, false)
    ∧ 0 < (⟨5, [6, 7]⟩ : GovState).activeRequests
    ∧ govStep ⟨5, [6, 7]⟩ .complete = (⟨5, [7]⟩, [6]) :=
  ⟨by decide, C7_governor_admission_fifo.1 ⟨3, []⟩ 42 (by decide), by decide,
    C7_governor_admission_fifo.2.1 ⟨5, [9]⟩ 43 (by decide), by decide,
    C7_governor_admission_fifo.2.2.2.1 ⟨5, [6, 7]⟩ 6 [7] (by decide) rfl⟩

/-! ## Retry lemmas -/

theorem withRetry_ok {E A : Type} (fn : Nat → Except E A) (r : Nat) (d : ℚ) (n : Nat)
    (a : A) (h : fn n = .ok a) : withRetry fn r d n = (.ok a, []) := by
  simp [withRetry, h]

theorem withRetry_error_last {E A : Type} (fn : Nat → Except E A) (d : ℚ) (n : Nat)
    (e : E) (h : fn n = .error e) : withRetry fn 0 d n = (.error e, []) := by
  simp [withRetry, h]

theorem withRetry_error_step {E A : Type} (fn : Nat → Except E A) (r : Nat) (d : ℚ)
    (n : Nat) (e : E) (h : fn n = .error e) :
    withRetry fn (r + 1) d n
      = ((withRetry fn r (d * 1.5) (n + 1)).1,
          d :: (withRetry fn r (d * 1.5) (n + 1)).2) := by
  conv_lhs => rw [withRetry]
  rw [h]

theorem withRetry_congr {E A : Type} (fn g : Nat → Except E A) :
    ∀ (r : Nat) (d : ℚ) (n : Nat), (∀ i, n ≤ i → i ≤ n + r → fn i = g i) →
      withRetry fn r d n = withRetry g r d n := by
  intro r
  induction r with
  | zero =>
    intro d n h
    have hn : fn n = g n := h n le_rfl (by omega)
    cases hfn : fn n with
    | ok a => rw [withRetry_ok fn 0 d n a hfn, withRetry_ok g 0 d n a (hn.symm.trans hfn)]
    | error e =>
      rw [withRetry_error_last fn d n e hfn, withRetry_error_last g d n e (hn.symm.trans hfn)]
  | succ k ih =>
    intro d n h
    have hn : fn n = g n := h n le_rfl (by omega)
    cases hfn : fn n with
    | ok a =>
      rw [withRetry_ok fn _ d n a hfn, withRetry_ok g _ d n a (hn.symm.trans hfn)]
    | error e =>
      rw [withRetry_error_step fn k d n e hfn,
        withRetry_error_step g k d n e (hn.symm.trans hfn),
        ih (d * 1.5) (n + 1) (fun i h1 h2 => h i (by omega) (by omega))]

/-- C8: Retry schedule and transparent failure — with the default arguments,
`withRetry` (i) returns the result of an immediately successful attempt with
no waiting; (ii) after failures on the first three attempts and success on
the 4th, resolves with that result after waiting 1000, 1500 and 2250 ms;
(iii) after failures on all 4 attempts (1 initial + 3 retries) propagates the
error of the final attempt unchanged; (iv) examines no attempt beyond the
4th: the outcome depends only on the task's behaviour on attempts 0–3. -/
theorem C8_retry_schedule (E A : Type) :
    (∀ (fn : Nat → Except E A) (a : A), fn 0 = .ok a →
      withRetryDefault fn = (.ok a, []))
    ∧ (∀ (fn : Nat → Except E A) (e0 e1 e2 : E) (a : A),
      fn 0 = .error e0 → fn 1 = .error e1 → fn 2 = .error e2 → fn 3 = .ok a →
      withRetryDefault fn = (.ok a, [1000, 1500, 2250]))
    ∧ (∀ (fn : Nat → Except E A) (e0 e1 e2 e3 : E),
      fn 0 = .error e0 → fn 1 = .error e1 → fn 2 = .error e2 → fn 3 = .error e3 →
      withRetryDefault fn = (.error e3, [1000, 1500, 2250]))
    ∧ (∀ fn g : Nat → Except E A, (∀ i, i ≤ 3 → fn i = g i) →
      withRetryDefault fn = withRetryDefault g) := by
  have hd1 : (1000 : ℚ) * 1.5 = 1500 := by norm_num
  have hd2 : (1500 : ℚ) * 1.5 = 2250 := by norm_num
  refine ⟨?_, ?_, ?_, ?_⟩
  · intro fn a h
    exact withRetry_ok fn MAX_RETRIES RETRY_DELAY_MS 0 a h
  · intro fn e0 e1 e2 a h0 h1 h2 h3
    show withRetry fn 3 1000 0 = _
    rw [withRetry_error_step fn 2 1000 0 e0 h0, hd1,
      withRetry_error_step fn 1 1500 1 e1 h1, hd2,
      withRetry_error_step fn 0 2250 2 e2 h2,
      withRetry_ok fn 0 (2250 * 1.5) 3 a h3]
  · intro fn e0 e1 e2 e3 h0 h1 h2 h3
    show withRetry fn 3 1000 0 = _
    rw [withRetry_error_step fn 2 1000 0 e0 h0, hd1,
      withRetry_error_step fn 1 1500 1 e1 h1, hd2,
      withRetry_error_step fn 0 2250 2 e2 h2,
      withRetry_error_last fn (2250 * 1.5) 3 e3 h3]
  · intro fn g h
    exact withRetry_congr fn g MAX_RETRIES RETRY_DELAY_MS 0
      (fun i h1 h2 => h i (by simp only [MAX_RETRIES] at h2; omega))

/-- A concrete task for the C8 witness: fails on attempts 0, 1, 2 and
succeeds on attempt 3. -/
def retryProbe : Nat → Except Nat Nat := fun i => if i < 3 then .error i else .ok 7

/-- C8 witness: the retry schedule at the concrete task failing three times
and succeeding on the 4th attempt. -/
theorem C8_retry_schedule_witness :
    retryProbe 0 = .error 0 ∧ retryProbe 1 = .error 1 ∧ retryProbe 2 = .error 2
    ∧ retryProbe 3 = .ok 7
    ∧ withRetryDefault retryProbe = (.ok 7, [1000, 1500, 2250]) :=
  ⟨rfl, rfl, rfl, rfl, (C8_retry_schedule Nat Nat).2.1 retryProbe 0 1 2 7 rfl rfl rfl rfl⟩

/-! ## Biometric matcher lemmas -/

theorem sqDist_nonneg : ∀ a b : List ℚ, 0 ≤ sqDist a b
  | [], _ => by simp [sqDist]
  | _ :: _, [] => by simp [sqDist]
  | x :: a, y :: b => by
    have ih := sqDist_nonneg a b
    simp only [sqDist, List.zipWith, List.sum_cons] at ih ⊢
    have hx : (0 : ℚ) ≤ (x - y) ^ 2 := sq_nonneg _
    linarith

theorem sqDist_self : ∀ d : List ℚ, sqDist d d = 0
  | [] => rfl
  | x :: d => by
    have ih := sqDist_self d
    simp only [sqDist, List.zipWith, List.sum_cons, sub_self, ne_eq, OfNat.ofNat_ne_zero,
      not_false_eq_true, zero_pow, zero_add] at ih ⊢
    exact ih

/-- C9: Biometric match semantics — (i) for equal-length descriptors the
match decision is `true` iff the Euclidean distance is strictly below the
threshold 0.5; (ii) every descriptor matches itself; (iii) equal-length
descriptors at Euclidean distance strictly above 0.5 do not match; (iv)
descriptors of different lengths yield the `InvalidDescriptor` error (`none`)
rather than a boolean. -/
theorem C9_biometric_match (c s d : List ℚ) :
    (c.length = s.length →
      (faceMatch c s = some true ↔ Real.sqrt ((sqDist c s : ℚ) : ℝ) < 1 / 2))
    ∧ faceMatch d d = some true
    ∧ (c.length = s.length → (1 / 2 : ℝ) < Real.sqrt ((sqDist c s : ℚ) : ℝ) →
        faceMatch c s = some false)
    ∧ (c.length ≠ s.length → faceMatch c s = none) := by
  have hiff : c.length = s.length →
      (faceMatch c s = some true ↔ Real.sqrt ((sqDist c s : ℚ) : ℝ) < 1 / 2) := by
    intro hlen
    have hsq : Real.sqrt ((sqDist c s : ℚ) : ℝ) < 1 / 2
        ↔ ((sqDist c s : ℚ) : ℝ) < (1 / 2) ^ 2 :=
      Real.sqrt_lt' (by norm_num)
    have hcast : ((sqDist c s : ℚ) : ℝ) < ((1 / 2 : ℚ) ^ 2 : ℚ)
        ↔ sqDist c s < (1 / 2 : ℚ) ^ 2 := by
      exact_mod_cast Iff.rfl
    simp only [faceMatch, if_pos hlen, Option.some_inj, decide_eq_true_eq, hsq]
    rw [show ((1 / 2 : ℝ) ^ 2) = (((1 / 2 : ℚ) ^ 2 : ℚ) : ℝ) by norm_num]
    rw [hcast]
    constructor
    · intro h
      simpa [faceThreshold] using h
    · intro h
      simpa [faceThreshold] using h
  refine ⟨hiff, ?_, ?_, ?_⟩
  · simp [faceMatch, sqDist_self, faceThreshold]
  · intro hlen hgt
    cases hb : decide (sqDist c s < faceThreshold ^ 2) with
    | false => simp [faceMatch, if_pos hlen, hb]
    | true =>
      exfalso
      have : faceMatch c s = some true := by simp [faceMatch, if_pos hlen, hb]
      have hlt := (hiff hlen).1 this
      linarith
  · intro hne
    simp [faceMatch, hne]

/-- C9 witness: the match rules at concrete descriptors — `[0]` vs `[2]` is
at Euclidean distance 2 > 0.5 and does not match, `[3, 7]` matches itself,
and descriptors of lengths 1 and 2 yield the error. -/
theorem C9_biometric_match_witness :
    ([(0 : ℚ)] : List ℚ).length = ([(2 : ℚ)] : List ℚ).length
    ∧ (1 / 2 : ℝ) < Real.sqrt ((sqDist [(0 : ℚ)] [(2 : ℚ)] : ℚ) : ℝ)
    ∧ faceMatch [(0 : ℚ)] [(2 : ℚ)] = some false
    ∧ faceMatch [(3 : ℚ), 7] [(3 : ℚ), 7] = some true
    ∧ ([(1 : ℚ)] : List ℚ).length ≠ ([(1 : ℚ), 2] : List ℚ).length
    ∧ faceMatch [(1 : ℚ)] [(1 : ℚ), 2] = none := by
  have hdist : (1 / 2 : ℝ) < Real.sqrt ((sqDist [(0 : ℚ)] [(2 : ℚ)] : ℚ) : ℝ) := by
    have h4 : ((sqDist [(0 : ℚ)] [(2 : ℚ)] : ℚ) : ℝ) = 4 := by
      norm_num [sqDist]
    rw [h4, show (4 : ℝ) = 2 ^ 2 by norm_num, Real.sqrt_sq (by norm_num : (0 : ℝ) ≤ 2)]
    norm_num
  exact ⟨rfl, hdist,
    (C9_biometric_match [(0 : ℚ)] [(2 : ℚ)] []).2.2.1 rfl hdist,
    (C9_biometric_match [] [] [(3 : ℚ), 7]).2.1,
    by decide,
    (C9_biometric_match [(1 : ℚ)] [(1 : ℚ), 2] []).2.2.2 (by decide)⟩

/-- C10: password-decrypt totality — for every blob, password, salt string
and verification-tag string (malformed base64 and corrupted ciphertext
included), `decryptFileWithPassword` returns either the explicit failure
value `{success := false}` with no payload or `{success := true}` with the
decrypted payload (it never surfaces an exception), and `verifyPassword`
returns `true` exactly when the salt decodes and the recomputed marker
ciphertext equals the stored tag, `false` in every other case. -/
theorem C10_decrypt_totality (blob : List Byte) (pw salt vh : List Nat) :
    (decryptFileWithPassword blob pw salt vh = ⟨false, none⟩
      ∨ ∃ pt, decryptFileWithPassword blob pw salt vh = ⟨true, some pt⟩
          ∧ ∃ sb, decodeB64 salt = some sb
              ∧ aeadDecrypt (deriveKeyBytes pw sb) (blob.take 12) (blob.drop 12) = some pt)
    ∧ (verifyPassword pw salt vh = true
        ↔ ∃ sb, decodeB64 salt = some sb ∧ verificationTagFor pw sb = vh) := by
  constructor
  · cases hsb : decodeB64 salt with
    | none =>
      left
      simp [decryptFileWithPassword, decryptFileWithPasswordT, hsb]
    | some sb =>
      by_cases htag : verificationTagFor pw sb ≠ vh
      · left
        simp [decryptFileWithPassword, decryptFileWithPasswordT, hsb, htag]
      · cases hdec : aeadDecrypt (deriveKeyBytes pw sb) (blob.take 12) (blob.drop 12) with
        | none =>
          left
          simp [decryptFileWithPassword, decryptFileWithPasswordT, hsb, htag, hdec]
        | some pt =>
          right
          refine ⟨pt, ?_, sb, rfl, hdec⟩
          simp [decryptFileWithPassword, decryptFileWithPasswordT, hsb, htag, hdec]
  · cases hsb : decodeB64 salt with
    | none =>
      simp [verifyPassword, hsb]
    | some sb =>
      simp only [verifyPassword, hsb, decide_eq_true_eq]
      constructor
      · intro h
        exact ⟨sb, rfl, h⟩
      · rintro ⟨sb', hsb', h⟩
        obtain rfl : sb = sb' := by injection hsb'
        exact h

end Encryptopia
